import Mathlib

/-!
Verification of the data-acquisition and analytics core of the Investment
Research Hub script (src/script.js).

The JavaScript source is shallowly embedded: pure computations become Lean
functions over `ℚ` or `ℝ`; JavaScript numbers that can be `NaN` or infinite
are modelled by the inductive type `JsNum`; the browser's `localStorage`
becomes an explicit state `String → Option (CacheEntry α)` threaded through
the fetch operations; network responses, `Math.sin` and `Math.random` are
parameters of the embedded functions (`Math.sin`/`Math.random` as noise
functions constrained to the interval the JS built-ins can produce).
`JSON.stringify`/`JSON.parse` round-tripping is a property of the JS runtime,
so cache entries store the structured payload directly.
-/

/-- A JavaScript number as it matters for this code: a finite rational,
`NaN`, or one of the two infinities (produced e.g. by `parseFloat` on bad
input or by division by zero). -/
inductive JsNum where
  | num (q : ℚ)
  | nan
  | inf
  | negInf
deriving DecidableEq, Repr

/-- JS `isNaN` on an already-numeric value. -/
def JsNum.isNaN : JsNum → Bool
  | .nan => true
  | _ => false

/-- JS `Number.isFinite`. -/
def JsNum.isFinite : JsNum → Bool
  | .num _ => true
  | _ => false

/-- JS division `a / b` of finite numbers: ordinary division for `b ≠ 0`,
`±Infinity` for a nonzero numerator over zero, `NaN` for `0 / 0`. -/
def jsDiv (a b : ℚ) : JsNum :=
  if b ≠ 0 then .num (a / b)
  else if 0 < a then .inf
  else if a < 0 then .negInf
  else .nan

/-- JS multiplication of a number by a positive finite constant (the code
only multiplies by `100`): finite values scale, `NaN` and the infinities
are preserved. -/
def JsNum.mulPos (x : JsNum) (c : ℚ) : JsNum :=
  match x with
  | .num q => .num (q * c)
  | .nan => .nan
  | .inf => .inf
  | .negInf => .negInf

/-- One `localStorage` entry written by `saveToCache`:
`{ timestamp: Date.now(), data }` (src/script.js:22). -/
structure CacheEntry (α : Type) where
  timestamp : ℤ
  data : α
deriving DecidableEq

/-- The browser `localStorage`, restricted to this site's entries: a map
from storage keys to stored payloads. -/
def CacheState (α : Type) : Type := String → Option (CacheEntry α)

/-- The storage key namespacing of src/script.js:23/31:
`investHubCache:${key}`. -/
def cacheKey (key : String) : String := "investHubCache:" ++ key

/-- Model of `saveToCache(key, data)` (src/script.js:20-27): wraps the payload with a
timestamp and stores it under the namespaced key. `Date.now()` is the
parameter `ts`. -/
def saveToCache {α : Type} (key : String) (data : α) (ts : ℤ)
    (st : CacheState α) : CacheState α :=
  fun k => if k = cacheKey key then some ⟨ts, data⟩ else st k

/-- Model of `loadFromCache(key)` (src/script.js:29-38): reads the namespaced key and
returns the `data` field of the stored payload, or `none` when the key is
absent. -/
def loadFromCache {α : Type} (key : String) (st : CacheState α) : Option α :=
  (st (cacheKey key)).map CacheEntry.data

/-- A time series as produced by the fetch helpers: parallel lists of
labels and (possibly non-finite) values. -/
structure JsSeries where
  labels : List String
  values : List JsNum
deriving DecidableEq, Repr

/-- One Alpaca bar as used by `fetchFromAlpaca` (src/script.js:2834-2842):
`t` is the timestamp string (`bar.t || bar.timestamp || bar.start || ''`),
`c` is the close after the JS coercion
`typeof c === 'number' ? c : parseFloat(c)`. -/
structure AlpacaBar where
  t : String
  c : JsNum
deriving DecidableEq, Repr

/-- The inner helper `fetchFromAlpaca` of `fetchEquitySeries`
(src/script.js:2819-2851). The argument is the parsed `bars` array of the
Alpaca response (`none` models a network/parse failure, i.e. the `catch`).
An empty bars array throws; the values are accepted only if every one
passes `!isNaN`, otherwise the helper fails (returns `null`). -/
def fetchFromAlpaca (barsResp : Option (List AlpacaBar)) : Option JsSeries :=
  match barsResp with
  | none => none
  | some bars =>
    if bars.isEmpty then none
    else if bars.all (fun b => !b.c.isNaN) then
      some ⟨bars.map (fun b => b.t.take 10), bars.map (fun b => b.c)⟩
    else none

/-- The AlphaVantage branch of `fetchEquitySeries` (src/script.js:2856-2867).
The argument is the `Time Series (Daily)` object as an association list from
date to `parseFloat(entry['4. close'])` (`none` models a missing series or a
thrown fetch error). Keys are sorted, the last 30 are kept, and the fetch
throws (caught by the caller) if any value fails `!isNaN`. -/
def fetchFromAlphaVantage (seriesResp : Option (List (String × JsNum))) :
    Option JsSeries :=
  match seriesResp with
  | none => none
  | some series =>
    let dates := ((series.map Prod.fst).mergeSort (fun a b => a ≤ b)).drop
      (series.length - 30)
    let values := dates.map (fun d => (series.lookup d).getD JsNum.nan)
    if values.all (fun v => !v.isNaN) then some ⟨dates, values⟩ else none

/-- The fallback generator `sample` of `fetchEquitySeries`
(src/script.js:2807-2812): 30 labels `Day i+1`; value `i` is
`base + Math.sin(i / 5) * 8 + i * 0.5` with base 250 for TSLA and 450
otherwise. `Math.sin(i / 5)` is modelled by the noise parameter, constrained
to `[-1, 1]` where a claim needs it. -/
def sample (symbol : String) (noise : ℕ → ℚ) : JsSeries :=
  ⟨(List.range 30).map (fun i => "Day " ++ toString (i + 1)),
   (List.range 30).map (fun i =>
     .num ((if symbol = "TSLA" then 250 else 450) + noise i * 8 + i * (1/2)))⟩

/-- Model of `fetchEquitySeries(symbol)` (src/script.js:2803-2872): try Alpaca, then
AlphaVantage, then return the synthetic `sample`. The function performs no
`localStorage` access, so the cache state is returned unchanged on every
path. -/
def fetchEquitySeries (barsResp : Option (List AlpacaBar))
    (avResp : Option (List (String × JsNum))) (symbol : String)
    (noise : ℕ → ℚ) (st : CacheState JsSeries) :
    JsSeries × CacheState JsSeries :=
  match fetchFromAlpaca barsResp with
  | some s => (s, st)
  | none =>
    match fetchFromAlphaVantage avResp with
    | some s => (s, st)
    | none => (sample symbol noise, st)

/-- Model of `fetchTwelveSeries(symbol)` (src/script.js:1620-1634). The argument is
`json.values` as a list of `(datetime, parseFloat(close))` pairs (`none`
models a fetch error or missing `values`). The series is returned reversed,
with no validation of the values at all. -/
def fetchTwelveSeries (valuesResp : Option (List (String × JsNum))) :
    Option JsSeries :=
  match valuesResp with
  | none => none
  | some vs => some ⟨(vs.map Prod.fst).reverse, (vs.map Prod.snd).reverse⟩

/-- The series built by `fetchOilPriceSeries` from a successful EIA response
(src/script.js:3211-3217): entries sorted by `period` ascending, then split
into labels and values. Each pair is `(item.period, Number(item.value))`. -/
def oilSeriesOf (series : List (String × JsNum)) : JsSeries :=
  let sorted := series.mergeSort (fun a b => a.1 ≤ b.1)
  ⟨sorted.map Prod.fst, sorted.map Prod.snd⟩

/-- The fallback generator of `fetchOilPriceSeries` (src/script.js:3191-3202):
365 dated points, value `j` (for `j = 0..364`, i.e. `i = 364 - j` in the
source loop) is `60 + (j + 1) * 0.02 + (Math.random() - 0.5) * 2`; the date
strings and the random noise (in `[-1, 1]`) are parameters. -/
def oilFallback (dateLabel : ℕ → String) (noise : ℕ → ℚ) : JsSeries :=
  ⟨(List.range 365).map dateLabel,
   (List.range 365).map (fun j => .num (60 + (j + 1) * (2/100) + noise j))⟩

/-- The `catch` branch of `fetchOilPriceSeries` (src/script.js:3221-3225):
load the cache; return the cached series if present, else the synthetic
fallback. The cache is not written on this path. -/
def oilPriceFailure (dateLabel : ℕ → String) (noise : ℕ → ℚ)
    (st : CacheState JsSeries) : JsSeries × CacheState JsSeries :=
  match loadFromCache "oilPriceSeries" st with
  | some c => (c, st)
  | none => (oilFallback dateLabel noise, st)

/-- Model of `fetchOilPriceSeries()` (src/script.js:3189-3226). The argument is
`json.response.data` as a list of `(period, Number(value))` pairs (`none`
models a fetch error or missing data). On success (a non-empty series) the
sorted series is written through to the cache under `oilPriceSeries` and
returned; an empty series throws into the failure branch. -/
def fetchOilPriceSeries (resp : Option (List (String × JsNum))) (ts : ℤ)
    (dateLabel : ℕ → String) (noise : ℕ → ℚ) (st : CacheState JsSeries) :
    JsSeries × CacheState JsSeries :=
  match resp with
  | none => oilPriceFailure dateLabel noise st
  | some series =>
    if series.isEmpty then oilPriceFailure dateLabel noise st
    else
      (oilSeriesOf series,
       saveToCache "oilPriceSeries" (oilSeriesOf series) ts st)

/-- The completely empty local storage. -/
def emptyCache : CacheState JsSeries := fun _ => none

/-- A concrete series standing for a stale cached payload. -/
def cachedEquitySeries : JsSeries := ⟨["cached"], [.num 1]⟩

/-- A storage state holding a cached series under the key `equity:XYZ`. -/
def cacheWithEquity : CacheState JsSeries :=
  saveToCache "equity:XYZ" cachedEquitySeries 0 emptyCache

namespace RenderStockOverview

/-- The base selection of `normalize(values)` (src/script.js:2967-2968):
the value at the first index holding a non-null entry, defaulting to 1 when
every entry is null. -/
def rebaseBase (values : List (Option ℚ)) : ℚ :=
  match values.findSome? id with
  | some v => v
  | none => 1

/-- Model of `normalize(values)` from `renderStockOverview` (src/script.js:2966-2970):
maps each non-null value `v` to `(v / base) * 100` (JS division, so a zero
base produces `NaN`/`Infinity`) and carries null through. -/
def normalize (values : List (Option ℚ)) : List (Option JsNum) :=
  values.map (fun v => v.map (fun x => (jsDiv x (rebaseBase values)).mulPos 100))

end RenderStockOverview

namespace SetupPortfolioAnalytics

/-- Mean portfolio return (src/script.js:639). The source has no emptiness
guard here (`0/0` is `NaN` in JS), so theorems about this definition carry a
non-emptiness hypothesis where it matters. -/
noncomputable def meanReturn (l : List ℝ) : ℝ := l.sum / l.length

/-- Population variance of the return series (src/script.js:640). -/
noncomputable def variance (l : List ℝ) : ℝ :=
  ((l.map (fun r => (r - meanReturn l) ^ 2)).sum) / l.length

/-- Daily volatility `Math.sqrt(variance)` (src/script.js:641). -/
noncomputable def dailyVol (l : List ℝ) : ℝ := Real.sqrt (variance l)

/-- Annualised volatility in percent (src/script.js:642):
`dailyVol * Math.sqrt(252) * 100`. -/
noncomputable def volatility (l : List ℝ) : ℝ :=
  dailyVol l * Real.sqrt 252 * 100

/-- Sharpe ratio (src/script.js:643):
`volatility === 0 ? 0 : (meanReturn * 252) / (volatility / 100)`. -/
noncomputable def sharpeRatio (l : List ℝ) : ℝ :=
  if volatility l = 0 then 0 else (meanReturn l * 252) / (volatility l / 100)

/-- One iteration of the max-drawdown loop (src/script.js:648-653), on the
accumulator `(cum, peak, maxDD)`. -/
def maxDrawdownStep (acc : ℚ × ℚ × ℚ) (r : ℚ) : ℚ × ℚ × ℚ :=
  let cum := acc.1 + r
  let peak := if cum > acc.2.1 then cum else acc.2.1
  let dd := peak - cum
  (cum, peak, if dd > acc.2.2 then dd else acc.2.2)

/-- Max drawdown (src/script.js:645-654): fold the loop from
`cum = peak = maxDD = 0`. -/
def maxDD (l : List ℚ) : ℚ := (l.foldl maxDrawdownStep (0, 0, 0)).2.2

/-- Model of `[...portfolioReturns].sort((a, b) => a - b)` (src/script.js:656):
the return series sorted ascending. -/
def sortedReturns (l : List ℚ) : List ℚ := l.mergeSort (fun a b => a ≤ b)

/-- Model of `Math.floor(sortedReturns.length * p)` (src/script.js:657-658). -/
def varIndex (n : ℕ) (p : ℚ) : ℕ := (⌊(n : ℚ) * p⌋).toNat

/-- Historical VaR at tail probability `p` (src/script.js:655-660):
`-sortedReturns[Math.floor(n*p)] * 100`; `none` models the out-of-bounds
access (JS `undefined`, giving `NaN`) on an empty series. -/
def historicalVaR (l : List ℚ) (p : ℚ) : Option ℚ :=
  ((sortedReturns l)[varIndex l.length p]?).map (fun x => -x * 100)

end SetupPortfolioAnalytics

namespace RenderPortfolioStats

/-- Mean daily portfolio return (src/script.js:1858-1860), guarded to 0 on
an empty series. -/
noncomputable def meanDaily (l : List ℝ) : ℝ :=
  if 0 < l.length then l.sum / l.length else 0

/-- Population variance (src/script.js:1861-1863), guarded to 0 on an empty
series. -/
noncomputable def variance (l : List ℝ) : ℝ :=
  if 0 < l.length then ((l.map (fun r => (r - meanDaily l) ^ 2)).sum) / l.length
  else 0

/-- Model of `Math.sqrt(variance)` (src/script.js:1864). -/
noncomputable def volatility (l : List ℝ) : ℝ := Real.sqrt (variance l)

/-- Model of `meanDaily * 252` (src/script.js:1866). -/
noncomputable def annualisedReturn (l : List ℝ) : ℝ := meanDaily l * 252

/-- Model of `volatility * Math.sqrt(252)` (src/script.js:1867). -/
noncomputable def annualisedVol (l : List ℝ) : ℝ :=
  volatility l * Real.sqrt 252

/-- Model of `annualisedVol !== 0 ? annualisedReturn / annualisedVol : 0`
(src/script.js:1868). -/
noncomputable def sharpe (l : List ℝ) : ℝ :=
  if annualisedVol l ≠ 0 then annualisedReturn l / annualisedVol l else 0

end RenderPortfolioStats

/-- Mean over the first `n` entries of a series, as accumulated by the loops
in `corr` (src/script.js:1922-1924). -/
noncomputable def seriesMean (a : List ℝ) (n : ℕ) : ℝ :=
  (∑ i ∈ Finset.range n, a.getD i 0) / n

/-- The accumulated `varA` of `corr` (src/script.js:1925-1931): the sum of
squared deviations over the first `n` entries. -/
noncomputable def seriesVarSum (a : List ℝ) (n : ℕ) : ℝ :=
  ∑ i ∈ Finset.range n, (a.getD i 0 - seriesMean a n) ^ 2

/-- The accumulated `cov` of `corr` (src/script.js:1925-1931). -/
noncomputable def seriesCov (a b : List ℝ) (n : ℕ) : ℝ :=
  ∑ i ∈ Finset.range n, (a.getD i 0 - seriesMean a n) * (b.getD i 0 - seriesMean b n)

/-- Pearson correlation `corr(a, b)` of `renderPortfolioCorrelation`
(src/script.js:1919-1935): truncate to the shorter length `n`, return 0 for
an empty overlap or a zero denominator `Math.sqrt(varA * varB)`. -/
noncomputable def corr (a b : List ℝ) : ℝ :=
  let n := min a.length b.length
  if n = 0 then 0
  else
    let denom := Real.sqrt (seriesVarSum a n * seriesVarSum b n)
    if denom = 0 then 0 else seriesCov a b n / denom

/-- The correlation matrix of `renderPortfolioCorrelation`
(src/script.js:1937): `corr` applied to every ordered pair of series. -/
noncomputable def pearsonMatrix (data : List (List ℝ)) : List (List ℝ) :=
  data.map (fun a => data.map (fun b => corr a b))

/-- Model of `means[i]` from `correlationMatrix` (src/script.js:799): the row sum over
the whole row divided by `n = data[0].length`. -/
noncomputable def rowMean (data : List (List ℝ)) (i : ℕ) : ℝ :=
  ((data.getD i []).sum) / (data.getD 0 []).length

/-- Model of `stds[i]` from `correlationMatrix` (src/script.js:800). -/
noncomputable def rowStd (data : List (List ℝ)) (i : ℕ) : ℝ :=
  Real.sqrt ((((data.getD i []).map (fun x => (x - rowMean data i) ^ 2)).sum)
    / (data.getD 0 []).length)

/-- The covariance accumulation of `correlationMatrix`
(src/script.js:805-809): `k` ranges over `0 ≤ k < n = data[0].length`. -/
noncomputable def rowCov (data : List (List ℝ)) (i j : ℕ) : ℝ :=
  (∑ k ∈ Finset.range (data.getD 0 []).length,
    ((data.getD i []).getD k 0 - rowMean data i)
      * ((data.getD j []).getD k 0 - rowMean data j))
    / (data.getD 0 []).length

/-- Model of `correlationMatrix(data)` from `setupPortfolioAnalytics`
(src/script.js:796-814): `matrix[i][j] = cov(i,j) / (stds[i] * stds[j])`. -/
noncomputable def correlationMatrix (data : List (List ℝ)) : List (List ℝ) :=
  (List.range data.length).map (fun i =>
    (List.range data.length).map (fun j =>
      rowCov data i j / (rowStd data i * rowStd data j)))

/-- Helper: the cache round-trip, shared by several developments below. -/
theorem load_save_roundtrip {α : Type} (key : String) (payload : α) (ts : ℤ)
    (st : CacheState α) :
    loadFromCache key (saveToCache key payload ts st) = some payload := by
  simp [loadFromCache, saveToCache]

/-- C9: for every key and every payload, `load(key)` after
`save(key, payload)` returns a value equal to the payload; the recorded
timestamp is stripped by `loadFromCache` and never affects the result. -/
theorem loadFromCache_saveToCache {α : Type} (key : String) (payload : α)
    (ts : ℤ) (st : CacheState α) :
    loadFromCache key (saveToCache key payload ts st) = some payload :=
  load_save_roundtrip key payload ts st

/-- C1 counterexample: `fetchEquitySeries` succeeds through its first
provider (Alpaca) but performs no cache write: the returned storage state is
the unchanged (empty) one, so no key holds the fetched series. -/
theorem fetchEquitySeries_writes_nothing :
    fetchEquitySeries (some [⟨"2024-01-02", .num 10⟩]) none "SPY"
        (fun _ => 0) emptyCache
      = (⟨["2024-01-02"], [.num 10]⟩, emptyCache)
    ∧ loadFromCache "equity:SPY" emptyCache = none :=
  ⟨rfl, rfl⟩

/-- C1 amended: providers are tried strictly in order and the first to
succeed determines the returned series; `fetchOilPriceSeries` writes the
successful series through to the cache under its key before returning, but
`fetchEquitySeries` performs no cache write (its storage state is returned
unchanged). -/
theorem fetch_order_write_through :
    (∀ barsResp avResp symbol noise st s, fetchFromAlpaca barsResp = some s →
      fetchEquitySeries barsResp avResp symbol noise st = (s, st))
    ∧ (∀ barsResp avResp symbol noise st s, fetchFromAlpaca barsResp = none →
      fetchFromAlphaVantage avResp = some s →
      fetchEquitySeries barsResp avResp symbol noise st = (s, st))
    ∧ (∀ series ts dateLabel noise st,
      series ≠ ([] : List (String × JsNum)) →
      fetchOilPriceSeries (some series) ts dateLabel noise st
        = (oilSeriesOf series,
           saveToCache "oilPriceSeries" (oilSeriesOf series) ts st)
      ∧ loadFromCache "oilPriceSeries"
          (fetchOilPriceSeries (some series) ts dateLabel noise st).2
        = some (oilSeriesOf series)) := by
  refine ⟨?_, ?_, ?_⟩
  · intro barsResp avResp symbol noise st s h
    simp [fetchEquitySeries, h]
  · intro barsResp avResp symbol noise st s h1 h2
    simp [fetchEquitySeries, h1, h2]
  · intro series ts dateLabel noise st hne
    have hEmpty : series.isEmpty = false := by
      simpa [List.isEmpty_iff] using hne
    constructor
    · simp [fetchOilPriceSeries, hEmpty]
    · simp only [fetchOilPriceSeries, hEmpty, Bool.false_eq_true, if_false]
      exact load_save_roundtrip _ _ _ _

/-- C1 witness: a one-point EIA response is sorted, returned, and written
through to the cache, from which it can be read back. -/
theorem fetch_order_write_through_witness :
    fetchOilPriceSeries (some [("2024-01-01", .num 70)]) 5 (fun _ => "")
        (fun _ => 0) emptyCache
      = (oilSeriesOf [("2024-01-01", .num 70)],
         saveToCache "oilPriceSeries" (oilSeriesOf [("2024-01-01", .num 70)])
           5 emptyCache)
    ∧ loadFromCache "oilPriceSeries"
        (fetchOilPriceSeries (some [("2024-01-01", .num 70)]) 5 (fun _ => "")
          (fun _ => 0) emptyCache).2
      = some (oilSeriesOf [("2024-01-01", .num 70)]) :=
  fetch_order_write_through.2.2 [("2024-01-01", .num 70)] 5 _ _ emptyCache
    (by decide)

/-- C2 counterexample: with every provider failing and a cache entry present
(under `equity:XYZ`), `fetchEquitySeries` does not return the cached entry:
it ignores the cache entirely and returns the synthetic sample series. -/
theorem fetchEquitySeries_ignores_cache :
    fetchEquitySeries none none "XYZ" (fun _ => 0) cacheWithEquity
      = (sample "XYZ" (fun _ => 0), cacheWithEquity)
    ∧ loadFromCache "equity:XYZ" cacheWithEquity = some cachedEquitySeries
    ∧ sample "XYZ" (fun _ => 0) ≠ cachedEquitySeries :=
  ⟨rfl, load_save_roundtrip _ _ _ _, by decide⟩

/-- C2 amended: when every provider fails, `fetchOilPriceSeries` returns the
cached entry unmodified if one exists and otherwise a synthetic series with
365 labels; `fetchEquitySeries` never consults the cache and returns a
synthetic series with 30 labels whose values are all finite and strictly
positive (given the sine bound); both functions are total, so neither raises
an error to its caller. -/
theorem exhausted_chain_spec :
    (∀ ts dateLabel noise st c,
      loadFromCache "oilPriceSeries" st = some c →
      fetchOilPriceSeries none ts dateLabel noise st = (c, st))
    ∧ (∀ ts dateLabel noise st,
      loadFromCache "oilPriceSeries" st = none →
      fetchOilPriceSeries none ts dateLabel noise st
        = (oilFallback dateLabel noise, st))
    ∧ (∀ dateLabel noise, (oilFallback dateLabel noise).labels.length = 365)
    ∧ (∀ barsResp avResp symbol noise st,
      fetchFromAlpaca barsResp = none → fetchFromAlphaVantage avResp = none →
      fetchEquitySeries barsResp avResp symbol noise st
        = (sample symbol noise, st))
    ∧ (∀ symbol noise, (sample symbol noise).labels.length = 30)
    ∧ (∀ symbol noise, (∀ i, |noise i| ≤ 1) →
      ∀ v ∈ (sample symbol noise).values, ∃ q, v = JsNum.num q ∧ 0 < q) := by
  refine ⟨?_, ?_, ?_, ?_, ?_, ?_⟩
  · intro ts dateLabel noise st c h
    simp [fetchOilPriceSeries, oilPriceFailure, h]
  · intro ts dateLabel noise st h
    simp [fetchOilPriceSeries, oilPriceFailure, h]
  · intro dateLabel noise
    simp [oilFallback]
  · intro barsResp avResp symbol noise st h1 h2
    simp [fetchEquitySeries, h1, h2]
  · intro symbol noise
    simp [sample]
  · intro symbol noise hb v hv
    simp only [sample, List.mem_map, List.mem_range] at hv
    obtain ⟨i, _, rfl⟩ := hv
    refine ⟨_, rfl, ?_⟩
    have h1 : -1 ≤ noise i := (abs_le.mp (hb i)).1
    have h2 : (-1 : ℚ) * 8 ≤ noise i * 8 :=
      mul_le_mul_of_nonneg_right h1 (by norm_num)
    have h3 : (0 : ℚ) ≤ (i : ℚ) * (1/2) := by positivity
    have h4 : (250 : ℚ) ≤ (if symbol = "TSLA" then 250 else 450) := by
      split <;> norm_num
    linarith

/-- C2 witness: with the EIA provider failing and an empty cache, the oil
fetch returns the synthetic fallback series, which has 365 labels. -/
theorem exhausted_chain_spec_witness :
    fetchOilPriceSeries none 0 (fun _ => "d") (fun _ => 0) emptyCache
      = (oilFallback (fun _ => "d") (fun _ => 0), emptyCache)
    ∧ (oilFallback (fun _ => "d") (fun _ => 0)).labels.length = 365 :=
  ⟨exhausted_chain_spec.2.1 0 _ _ emptyCache rfl,
   exhausted_chain_spec.2.2.1 _ _⟩

/-- C5 counterexample: `fetchTwelveSeries` performs no validation: a
response whose close parses to `NaN` is returned as a (non-finite) series
rather than failing the whole fetch. -/
theorem fetchTwelveSeries_unvalidated :
    fetchTwelveSeries (some [("2024-01-02", JsNum.nan)])
      = some ⟨["2024-01-02"], [JsNum.nan]⟩
    ∧ JsNum.nan.isFinite = false :=
  ⟨rfl, rfl⟩

/-- C5 amended: `fetchFromAlpaca` and the AlphaVantage parser of
`fetchEquitySeries` reject any response containing a `NaN` value (the whole
fetch fails; no partial series is returned), but the check is `!isNaN`
rather than full finiteness, so an infinite value passes; and
`fetchTwelveSeries` performs no validation at all, returning a series
containing `NaN` unchanged. -/
theorem provider_validation_spec :
    (∀ barsResp s, fetchFromAlpaca barsResp = some s →
      ∀ v ∈ s.values, v.isNaN = false)
    ∧ (∀ bars, (∃ b ∈ bars, b.c.isNaN = true) →
      fetchFromAlpaca (some bars) = none)
    ∧ (∀ seriesResp s, fetchFromAlphaVantage seriesResp = some s →
      ∀ v ∈ s.values, v.isNaN = false)
    ∧ fetchTwelveSeries (some [("2024-01-02", JsNum.nan)])
        = some ⟨["2024-01-02"], [JsNum.nan]⟩
    ∧ fetchFromAlpaca (some [⟨"2024-01-02", JsNum.inf⟩])
        = some ⟨["2024-01-02"], [JsNum.inf]⟩ := by
  refine ⟨?_, ?_, ?_, rfl, rfl⟩
  · intro barsResp s h v hv
    match barsResp with
    | none => simp [fetchFromAlpaca] at h
    | some bars =>
      simp only [fetchFromAlpaca] at h
      split_ifs at h with h1 h2
      · cases h
        simp only [List.all_eq_true] at h2
        obtain ⟨b, hb, rfl⟩ := List.mem_map.mp hv
        simpa using h2 b hb
  · intro bars ⟨b, hb, hnan⟩
    simp only [fetchFromAlpaca]
    split_ifs with h1 h2
    · rfl
    · exfalso
      have := (List.all_eq_true.mp h2) b hb
      simp [hnan] at this
    · rfl
  · intro seriesResp s h v hv
    match seriesResp with
    | none => simp [fetchFromAlphaVantage] at h
    | some series =>
      simp only [fetchFromAlphaVantage] at h
      split_ifs at h with h1
      cases h
      simpa using (List.all_eq_true.mp h1) v hv

/-- C5 witness: an Alpaca response containing a `NaN` close makes the whole
Alpaca fetch fail (no partial series). -/
theorem provider_validation_spec_witness :
    fetchFromAlpaca (some [⟨"2024-01-02", JsNum.nan⟩]) = none :=
  provider_validation_spec.2.1 [⟨"2024-01-02", JsNum.nan⟩]
    ⟨⟨"2024-01-02", JsNum.nan⟩, by simp, rfl⟩

/-- C3 counterexample: when the first value of the series is zero, the base
is 0 (not 1), and the rebased series is non-finite: rebasing `[0, 5, 10]`
gives `[NaN, Infinity, Infinity]`, not a finite result. -/
theorem normalize_zero_first_value :
    RenderStockOverview.normalize [some 0, some 5, some 10]
      = [some JsNum.nan, some JsNum.inf, some JsNum.inf]
    ∧ JsNum.inf.isFinite = false := by
  constructor
  · norm_num [RenderStockOverview.normalize, RenderStockOverview.rebaseBase,
      jsDiv, JsNum.mulPos]
  · rfl

/-- C3 amended: `normalize` maps every non-absent value `v` to
`(v / base) * 100` where `base` is the first non-absent value; the base
defaults to 1 only when every value is absent. When the first non-absent
value is 0 the base is 0 and the JS division yields non-finite values
(`rebase([0,5,10])` is `[NaN, Infinity, Infinity]`), while
`rebase([10,20,30]) = [100,200,300]` as specified. -/
theorem normalize_spec :
    (∀ values b, values.findSome? id = some b → b ≠ 0 →
      RenderStockOverview.normalize values
        = values.map (fun v => v.map (fun x => JsNum.num (x / b * 100))))
    ∧ (∀ values, values.findSome? id = none →
      RenderStockOverview.normalize values
        = values.map (fun v => v.map (fun x => JsNum.num (x / 1 * 100))))
    ∧ RenderStockOverview.normalize [some 10, some 20, some 30]
        = [some (JsNum.num 100), some (JsNum.num 200), some (JsNum.num 300)]
    ∧ RenderStockOverview.rebaseBase [some 0, some 5, some 10] = 0 := by
  refine ⟨?_, ?_, ?_, rfl⟩
  · intro values b h hb
    simp [RenderStockOverview.normalize, RenderStockOverview.rebaseBase, h,
      jsDiv, hb, JsNum.mulPos]
  · intro values h
    simp [RenderStockOverview.normalize, RenderStockOverview.rebaseBase, h,
      jsDiv, JsNum.mulPos]
  · norm_num [RenderStockOverview.normalize, RenderStockOverview.rebaseBase,
      jsDiv, JsNum.mulPos]

/-- C3 witness: rebasing `[10, 20, 30]` uses base 10 and scales every value
by `(v / 10) * 100`. -/
theorem normalize_spec_witness :
    RenderStockOverview.normalize [some 10, some 20, some 30]
      = [some 10, some 20, some 30].map
          (fun v => v.map (fun x => JsNum.num (x / 10 * 100))) :=
  normalize_spec.1 [some 10, some 20, some 30] 10 rfl (by norm_num)

/-- C4 counterexample: on the single-element return series `[1]`, the
historical VaR is `-100`, not 0; on `[-1]` the max drawdown is 1, not 0; and
on the empty series the VaR indexing is out of bounds (JS `undefined`,
giving `NaN`), not 0. -/
theorem degenerate_inputs_cex :
    SetupPortfolioAnalytics.historicalVaR [1] (5/100) = some (-100)
    ∧ SetupPortfolioAnalytics.maxDD [-1] = 1
    ∧ SetupPortfolioAnalytics.historicalVaR [] (5/100) = none := by
  refine ⟨?_, ?_, ?_⟩
  · simp only [SetupPortfolioAnalytics.historicalVaR,
      SetupPortfolioAnalytics.sortedReturns, SetupPortfolioAnalytics.varIndex,
      List.mergeSort_singleton, List.length_singleton]
    norm_num
  · norm_num [SetupPortfolioAnalytics.maxDD,
      SetupPortfolioAnalytics.maxDrawdownStep]
  · simp [SetupPortfolioAnalytics.historicalVaR,
      SetupPortfolioAnalytics.sortedReturns]

/-- C4 amended: for empty and single-element return series the guarded
volatility and Sharpe computations of `renderPortfolioStats` return exactly
0, and the max drawdown returns 0 on the empty series; but the max drawdown
of a single-element series `[r]` is `max 0 (-r)` (nonzero for `r < 0`), the
historical VaR of `[r]` is `-r * 100` (nonzero for `r ≠ 0`), and on the
empty series the VaR indexing is out of bounds (no value). -/
theorem degenerate_inputs_spec :
    RenderPortfolioStats.volatility [] = 0
    ∧ RenderPortfolioStats.sharpe [] = 0
    ∧ (∀ r : ℝ, RenderPortfolioStats.volatility [r] = 0)
    ∧ (∀ r : ℝ, RenderPortfolioStats.sharpe [r] = 0)
    ∧ SetupPortfolioAnalytics.maxDD [] = 0
    ∧ (∀ r : ℚ, SetupPortfolioAnalytics.maxDD [r] = max 0 (-r))
    ∧ (∀ p : ℚ, SetupPortfolioAnalytics.historicalVaR [] p = none)
    ∧ (∀ r : ℚ, SetupPortfolioAnalytics.historicalVaR [r] (5/100)
        = some (-r * 100)) := by
  have hvol0 : RenderPortfolioStats.volatility [] = 0 := by
    simp [RenderPortfolioStats.volatility, RenderPortfolioStats.variance]
  have hvol1 : ∀ r : ℝ, RenderPortfolioStats.volatility [r] = 0 := by
    intro r
    simp [RenderPortfolioStats.volatility, RenderPortfolioStats.variance,
      RenderPortfolioStats.meanDaily]
  refine ⟨hvol0, ?_, hvol1, ?_, rfl, ?_, ?_, ?_⟩
  · simp [RenderPortfolioStats.sharpe, RenderPortfolioStats.annualisedVol,
      hvol0]
  · intro r
    simp [RenderPortfolioStats.sharpe, RenderPortfolioStats.annualisedVol,
      hvol1 r]
  · intro r
    rcases lt_trichotomy r 0 with hr | hr | hr
    · have h1 : ¬ (0 : ℚ) + r > 0 := by linarith
      have h2 : (0 : ℚ) - (0 + r) > 0 := by linarith
      simp only [SetupPortfolioAnalytics.maxDD, List.foldl_cons, List.foldl_nil,
        SetupPortfolioAnalytics.maxDrawdownStep, if_neg h1, if_pos h2]
      rw [max_eq_right (by linarith : (0:ℚ) ≤ -r)]
      ring
    · subst hr
      norm_num [SetupPortfolioAnalytics.maxDD,
        SetupPortfolioAnalytics.maxDrawdownStep]
    · have h1 : (0 : ℚ) + r > 0 := by linarith
      have h2 : ¬ ((0 : ℚ) + r) - (0 + r) > 0 := by linarith
      simp only [SetupPortfolioAnalytics.maxDD, List.foldl_cons, List.foldl_nil,
        SetupPortfolioAnalytics.maxDrawdownStep, if_pos h1, if_neg h2]
      rw [max_eq_left (by linarith : (-r:ℚ) ≤ 0)]
  · intro p
    simp [SetupPortfolioAnalytics.historicalVaR,
      SetupPortfolioAnalytics.sortedReturns]
  · intro r
    simp only [SetupPortfolioAnalytics.historicalVaR,
      SetupPortfolioAnalytics.sortedReturns, SetupPortfolioAnalytics.varIndex,
      List.mergeSort_singleton, List.length_singleton]
    norm_num

/-- C6: historical VaR sorts the return series ascending and negates the
element at index `floor(n * p)`; consequently, for every non-empty return
series both indices are in bounds and `VaR(0.01) >= VaR(0.05)`. -/
theorem var99_ge_var95 (l : List ℚ) (h : l ≠ []) :
    (SetupPortfolioAnalytics.historicalVaR l (1/100)).isSome = true
    ∧ (SetupPortfolioAnalytics.historicalVaR l (5/100)).isSome = true
    ∧ (SetupPortfolioAnalytics.historicalVaR l (5/100)).getD 0
        ≤ (SetupPortfolioAnalytics.historicalVaR l (1/100)).getD 0 := by
  have hn : 0 < l.length := List.length_pos.mpr h
  have hnq : (0 : ℚ) < l.length := by exact_mod_cast hn
  have hlen : (SetupPortfolioAnalytics.sortedReturns l).length = l.length :=
    List.length_mergeSort l
  have hsorted : (SetupPortfolioAnalytics.sortedReturns l).Sorted (· ≤ ·) :=
    List.sorted_mergeSort' l
  have hfl1 : (0:ℤ) ≤ ⌊(l.length : ℚ) * (1/100)⌋ :=
    Int.floor_nonneg.mpr (by positivity)
  have hmono : ⌊(l.length : ℚ) * (1/100)⌋ ≤ ⌊(l.length : ℚ) * (5/100)⌋ :=
    Int.floor_le_floor (by nlinarith)
  have hlt : ⌊(l.length : ℚ) * (5/100)⌋ < (l.length : ℤ) :=
    Int.floor_lt.mpr (by push_cast; nlinarith)
  have hi5 : SetupPortfolioAnalytics.varIndex l.length (5/100) < l.length := by
    unfold SetupPortfolioAnalytics.varIndex; omega
  have hi15 : SetupPortfolioAnalytics.varIndex l.length (1/100)
      ≤ SetupPortfolioAnalytics.varIndex l.length (5/100) := by
    unfold SetupPortfolioAnalytics.varIndex; omega
  have hi1 : SetupPortfolioAnalytics.varIndex l.length (1/100) < l.length :=
    lt_of_le_of_lt hi15 hi5
  have h5lt : SetupPortfolioAnalytics.varIndex l.length (5/100)
      < (SetupPortfolioAnalytics.sortedReturns l).length := by
    rw [hlen]; exact hi5
  have h1lt : SetupPortfolioAnalytics.varIndex l.length (1/100)
      < (SetupPortfolioAnalytics.sortedReturns l).length := by
    rw [hlen]; exact hi1
  have e5 := List.getElem?_eq_getElem h5lt
  have e1 := List.getElem?_eq_getElem h1lt
  have hle : (SetupPortfolioAnalytics.sortedReturns l).get ⟨_, h1lt⟩
      ≤ (SetupPortfolioAnalytics.sortedReturns l).get ⟨_, h5lt⟩ :=
    hsorted.rel_get_of_le (by exact hi15)
  refine ⟨?_, ?_, ?_⟩
  · simp only [SetupPortfolioAnalytics.historicalVaR, e1, Option.map_some',
      Option.isSome_some]
  · simp only [SetupPortfolioAnalytics.historicalVaR, e5, Option.map_some',
      Option.isSome_some]
  · simp only [SetupPortfolioAnalytics.historicalVaR, e5, e1,
      Option.map_some', Option.getD_some]
    simp only [List.get_eq_getElem] at hle
    linarith

/-- C6 witness: on the single-element return series `[1]` both VaR values
exist and `VaR(0.01) >= VaR(0.05)`. -/
theorem var99_ge_var95_witness :
    (SetupPortfolioAnalytics.historicalVaR [1] (1/100)).isSome = true
    ∧ (SetupPortfolioAnalytics.historicalVaR [1] (5/100)).isSome = true
    ∧ (SetupPortfolioAnalytics.historicalVaR [1] (5/100)).getD 0
        ≤ (SetupPortfolioAnalytics.historicalVaR [1] (1/100)).getD 0 :=
  var99_ge_var95 [1] (by decide)

/-- C8: in both implementations the Sharpe ratio equals the annualised
return divided by the annualised volatility whenever the volatility is
nonzero, and is exactly 0 whenever the volatility is 0; in particular for
the return series `[0, 0, 0]` both implementations give 0. -/
theorem sharpe_spec :
    (∀ l : List ℝ, RenderPortfolioStats.annualisedVol l ≠ 0 →
      RenderPortfolioStats.sharpe l
        = RenderPortfolioStats.annualisedReturn l
          / RenderPortfolioStats.annualisedVol l)
    ∧ (∀ l : List ℝ, RenderPortfolioStats.annualisedVol l = 0 →
      RenderPortfolioStats.sharpe l = 0)
    ∧ (∀ l : List ℝ, SetupPortfolioAnalytics.volatility l ≠ 0 →
      SetupPortfolioAnalytics.sharpeRatio l
        = (SetupPortfolioAnalytics.meanReturn l * 252)
          / (SetupPortfolioAnalytics.dailyVol l * Real.sqrt 252))
    ∧ (∀ l : List ℝ, SetupPortfolioAnalytics.volatility l = 0 →
      SetupPortfolioAnalytics.sharpeRatio l = 0)
    ∧ RenderPortfolioStats.sharpe [0, 0, 0] = 0
    ∧ SetupPortfolioAnalytics.sharpeRatio [0, 0, 0] = 0 := by
  refine ⟨?_, ?_, ?_, ?_, ?_, ?_⟩
  · intro l h
    rw [RenderPortfolioStats.sharpe, if_pos h]
  · intro l h
    rw [RenderPortfolioStats.sharpe, if_neg (by simpa using h)]
  · intro l h
    rw [SetupPortfolioAnalytics.sharpeRatio, if_neg h,
      SetupPortfolioAnalytics.volatility,
      mul_div_cancel_right₀ _ (by norm_num : (100:ℝ) ≠ 0)]
  · intro l h
    rw [SetupPortfolioAnalytics.sharpeRatio, if_pos h]
  · have hv : RenderPortfolioStats.variance [0, 0, 0] = 0 := by
      simp [RenderPortfolioStats.variance, RenderPortfolioStats.meanDaily]
    have h : RenderPortfolioStats.annualisedVol [0, 0, 0] = 0 := by
      simp [RenderPortfolioStats.annualisedVol,
        RenderPortfolioStats.volatility, hv]
    simp [RenderPortfolioStats.sharpe, h]
  · have hv : SetupPortfolioAnalytics.variance [0, 0, 0] = 0 := by
      simp [SetupPortfolioAnalytics.variance,
        SetupPortfolioAnalytics.meanReturn]
    have h : SetupPortfolioAnalytics.volatility [0, 0, 0] = 0 := by
      simp [SetupPortfolioAnalytics.volatility,
        SetupPortfolioAnalytics.dailyVol, hv]
    simp [SetupPortfolioAnalytics.sharpeRatio, h]

/-- C8 witness: the single-element return series `[0]` has zero annualised
volatility and Sharpe ratio exactly 0. -/
theorem sharpe_spec_witness :
    RenderPortfolioStats.annualisedVol [0] = 0
    ∧ RenderPortfolioStats.sharpe [0] = 0 := by
  have h : RenderPortfolioStats.annualisedVol [0] = 0 := by
    simp [RenderPortfolioStats.annualisedVol, RenderPortfolioStats.volatility,
      RenderPortfolioStats.variance, RenderPortfolioStats.meanDaily]
  exact ⟨h, sharpe_spec.2.1 [0] h⟩

/-- Helper: a list sum of mapped values as an indexed sum over the range of
its length. -/
theorem list_sum_map_eq_range (l : List ℝ) (f : ℝ → ℝ) :
    (l.map f).sum = ∑ k ∈ Finset.range l.length, f (l.getD k 0) := by
  induction l with
  | nil => simp
  | cons x xs ih =>
    rw [List.map_cons, List.sum_cons, List.length_cons, Finset.sum_range_succ']
    simp [ih, add_comm]

/-- Helper: indexing a mapped range list within bounds. -/
theorem getD_range_map {α : Type} (g : ℕ → α) (m i : ℕ) (hi : i < m) (d : α) :
    ((List.range m).map g).getD i d = g i := by
  rw [List.getD_eq_getElem?_getD, List.getElem?_map, List.getElem?_range hi,
    Option.map_some', Option.getD_some]

/-- Helper: `corr` is symmetric in its two series. -/
theorem corr_comm (a b : List ℝ) : corr a b = corr b a := by
  have hcov : seriesCov a b (min a.length b.length)
      = seriesCov b a (min a.length b.length) :=
    Finset.sum_congr rfl (fun i _ => mul_comm _ _)
  simp only [corr, min_comm b.length a.length, hcov,
    mul_comm (seriesVarSum b (min a.length b.length)) _]

/-- Helper: `corr` of a series with itself is 1 when the accumulated sum of
squared deviations is nonzero. -/
theorem corr_self (a : List ℝ) (h : seriesVarSum a a.length ≠ 0) :
    corr a a = 1 := by
  have hne : a.length ≠ 0 := by
    intro h0
    apply h
    rw [h0]
    simp [seriesVarSum]
  have hV : 0 ≤ seriesVarSum a a.length :=
    Finset.sum_nonneg (fun i _ => sq_nonneg _)
  have hcov : seriesCov a a a.length = seriesVarSum a a.length :=
    Finset.sum_congr rfl (fun i _ => (pow_two _).symm)
  simp only [corr, min_self]
  rw [if_neg hne, Real.sqrt_mul_self hV, if_neg h, hcov, div_self h]

/-- Helper: the `(i, j)` entry of `correlationMatrix` within bounds. -/
theorem correlationMatrix_entry (data : List (List ℝ)) (i j : ℕ)
    (hi : i < data.length) (hj : j < data.length) :
    ((correlationMatrix data).getD i []).getD j 0
      = rowCov data i j / (rowStd data i * rowStd data j) := by
  rw [correlationMatrix, getD_range_map _ _ _ hi, getD_range_map _ _ _ hj]

/-- Helper: `correlationMatrix` is symmetric entrywise. -/
theorem correlationMatrix_symm_entry (data : List (List ℝ)) (i j : ℕ)
    (hi : i < data.length) (hj : j < data.length) :
    ((correlationMatrix data).getD i []).getD j 0
      = ((correlationMatrix data).getD j []).getD i 0 := by
  rw [correlationMatrix_entry data i j hi hj,
    correlationMatrix_entry data j i hj hi]
  have hcov : rowCov data i j = rowCov data j i := by
    unfold rowCov
    congr 1
    exact Finset.sum_congr rfl (fun k _ => mul_comm _ _)
  rw [hcov, mul_comm (rowStd data j) (rowStd data i)]

/-- Helper: a diagonal entry of `correlationMatrix` is 1 for a row of the
common length with nonzero sum of squared deviations. -/
theorem correlationMatrix_diag_entry (data : List (List ℝ)) (i : ℕ)
    (hi : i < data.length)
    (hlen : (data.getD i []).length = (data.getD 0 []).length)
    (hS : (((data.getD i []).map (fun x => (x - rowMean data i) ^ 2)).sum)
      ≠ 0) :
    ((correlationMatrix data).getD i []).getD i 0 = 1 := by
  rw [correlationMatrix_entry data i i hi hi]
  have hS0 : 0 ≤ ((data.getD i []).map (fun x => (x - rowMean data i) ^ 2)).sum :=
    List.sum_nonneg (fun x hx => by
      obtain ⟨y, _, rfl⟩ := List.mem_map.mp hx
      exact sq_nonneg _)
  have hnne : ((data.getD 0 []).length : ℝ) ≠ 0 := by
    intro h0
    apply hS
    have h0n : (data.getD 0 []).length = 0 := by exact_mod_cast h0
    have hrownil : data.getD i [] = [] :=
      List.eq_nil_of_length_eq_zero (hlen.trans h0n)
    rw [hrownil]
    simp
  have hcov : rowCov data i i
      = (((data.getD i []).map (fun x => (x - rowMean data i) ^ 2)).sum)
        / (data.getD 0 []).length := by
    unfold rowCov
    congr 1
    rw [list_sum_map_eq_range, hlen]
    exact (Finset.sum_congr rfl (fun k _ => pow_two _)).symm
  have hstd : rowStd data i * rowStd data i
      = (((data.getD i []).map (fun x => (x - rowMean data i) ^ 2)).sum)
        / (data.getD 0 []).length := by
    unfold rowStd
    exact Real.mul_self_sqrt (div_nonneg hS0 (Nat.cast_nonneg _))
  rw [hcov, hstd, div_self (div_ne_zero hS hnne)]

/-- C7: both correlation computations produce symmetric matrices
(`M[i][j] = M[j][i]` for in-bounds indices), and their diagonal entries are
exactly 1 for every series with nonzero variance (for `correlationMatrix`,
a row of the common length `data[0].length`). -/
theorem correlation_symm_diag :
    (∀ a b : List ℝ, corr a b = corr b a)
    ∧ (∀ a : List ℝ, seriesVarSum a a.length ≠ 0 → corr a a = 1)
    ∧ (∀ (data : List (List ℝ)) (i j : ℕ), i < data.length →
      j < data.length →
      ((correlationMatrix data).getD i []).getD j 0
        = ((correlationMatrix data).getD j []).getD i 0)
    ∧ (∀ (data : List (List ℝ)) (i : ℕ), i < data.length →
      (data.getD i []).length = (data.getD 0 []).length →
      (((data.getD i []).map (fun x => (x - rowMean data i) ^ 2)).sum) ≠ 0 →
      ((correlationMatrix data).getD i []).getD i 0 = 1) :=
  ⟨corr_comm, corr_self,
   fun data i j hi hj => correlationMatrix_symm_entry data i j hi hj,
   fun data i hi hlen hS => correlationMatrix_diag_entry data i hi hlen hS⟩

/-- C7 witness: the correlation of the series `[0, 2]` with itself is 1,
and a concrete off-diagonal pair of `correlationMatrix` entries agree. -/
theorem correlation_symm_diag_witness :
    corr [0, 2] [0, 2] = 1
    ∧ ((correlationMatrix [[0, 2], [1, 5]]).getD 0 []).getD 1 0
        = ((correlationMatrix [[0, 2], [1, 5]]).getD 1 []).getD 0 0 :=
  ⟨correlation_symm_diag.2.1 [0, 2]
     (by norm_num [seriesVarSum, seriesMean, Finset.sum_range_succ]),
   correlation_symm_diag.2.2.1 [[0, 2], [1, 5]] 0 1 (by simp) (by simp)⟩

/-- C10: the pairwise Pearson correlation computed by `corr` lies in the
closed interval `[-1, 1]` (in exact real arithmetic), and both degenerate
branches (empty overlap, zero denominator) return 0. -/
theorem corr_in_unit_interval (a b : List ℝ) :
    (-1 ≤ corr a b ∧ corr a b ≤ 1)
    ∧ (min a.length b.length = 0 → corr a b = 0)
    ∧ (Real.sqrt (seriesVarSum a (min a.length b.length)
        * seriesVarSum b (min a.length b.length)) = 0 → corr a b = 0) := by
  have hcorr : corr a b
      = if min a.length b.length = 0 then 0
        else if Real.sqrt (seriesVarSum a (min a.length b.length)
            * seriesVarSum b (min a.length b.length)) = 0 then 0
        else seriesCov a b (min a.length b.length)
          / Real.sqrt (seriesVarSum a (min a.length b.length)
            * seriesVarSum b (min a.length b.length)) := rfl
  rw [hcorr]
  split_ifs with h0 hd
  · exact ⟨⟨by norm_num, by norm_num⟩, fun _ => rfl, fun _ => rfl⟩
  · exact ⟨⟨by norm_num, by norm_num⟩, fun h => absurd h h0, fun _ => rfl⟩
  · refine ⟨?_, fun h => absurd h h0, fun h => absurd h hd⟩
    have hpos : 0 < Real.sqrt (seriesVarSum a (min a.length b.length)
        * seriesVarSum b (min a.length b.length)) :=
      (Real.sqrt_nonneg _).lt_of_ne (Ne.symm hd)
    have hcs : seriesCov a b (min a.length b.length) ^ 2
        ≤ seriesVarSum a (min a.length b.length)
          * seriesVarSum b (min a.length b.length) :=
      Finset.sum_mul_sq_le_sq_mul_sq (Finset.range (min a.length b.length)) _ _
    have habs : |seriesCov a b (min a.length b.length)|
        ≤ Real.sqrt (seriesVarSum a (min a.length b.length)
          * seriesVarSum b (min a.length b.length)) := by
      rw [← Real.sqrt_sq_eq_abs]
      exact Real.sqrt_le_sqrt hcs
    obtain ⟨hlo, hhi⟩ := abs_le.mp habs
    constructor
    · rw [le_div_iff₀ hpos]
      linarith
    · rw [div_le_one hpos]
      exact hhi

/-- C10 witness: the empty-overlap branch of `corr` returns 0, and a
concrete two-point pair stays inside `[-1, 1]`. -/
theorem corr_in_unit_interval_witness :
    corr ([] : List ℝ) [] = 0
    ∧ -1 ≤ corr [1, 2] [2, 1] ∧ corr [1, 2] [2, 1] ≤ 1 :=
  ⟨(corr_in_unit_interval [] []).2.1 rfl,
   (corr_in_unit_interval [1, 2] [2, 1]).1.1,
   (corr_in_unit_interval [1, 2] [2, 1]).1.2⟩
